import Mathlib

/- Verification of the gittoolbox library (gittoolbox.go).

The Go source is embedded shallowly:

- Pure string manipulation from Go's standard library (strings.TrimSpace,
  strings.Split, strings.Fields, strings.ContainsAny) is re-implemented as
  structurally recursive Lean functions on the character list of a string.
- The filesystem (os.Stat, os.ReadDir, filepath.Glob) and the path-cleaning
  functions (filepath.Clean, filepath.Dir), which the design document treats
  as external collaborators with host semantics, are abstracted into an
  `FS` record of functions; theorems quantify over it.
- The git subprocess (exec.Command via gitOutputIn) is abstracted into a
  `Backend` record: a function from working directory and argument list to
  either combined output text or an error message.
- Fallible Go code returning (value, error) is modelled with `Except`;
  `GetVersionMetadata`, which returns the triple (string, string, error) and
  fills the two strings with "" on every error path, is modelled with the
  literal triple `String × String × Option GVMError` to keep that shape.
-/

namespace GitToolbox

/-- Decidable equality for `Except`, needed to evaluate concrete runs. -/
instance {ε α : Type} [DecidableEq ε] [DecidableEq α] : DecidableEq (Except ε α) := fun a b =>
  match a, b with
  | .ok x, .ok y =>
    if h : x = y then .isTrue (by rw [h]) else .isFalse (by intro hc; cases hc; exact h rfl)
  | .error x, .error y =>
    if h : x = y then .isTrue (by rw [h]) else .isFalse (by intro hc; cases hc; exact h rfl)
  | .ok _, .error _ => .isFalse (by intro hc; cases hc)
  | .error _, .ok _ => .isFalse (by intro hc; cases hc)

/-- ASCII fragment of Go's unicode.IsSpace: space, tab, newline, vertical
tab, form feed, carriage return. -/
def isSpaceChar (c : Char) : Bool :=
  c = ' ' || c = '\t' || c = '\n' || c = '\x0b' || c = '\x0c' || c = '\r'

/-- Go strings.TrimSpace: drop leading and trailing whitespace. -/
def trimSpace (s : String) : String :=
  String.mk (((s.data.dropWhile isSpaceChar).reverse.dropWhile isSpaceChar).reverse)

/-- Splitting a character list at every occurrence of `sep`; the backbone of
Go strings.Split with a one-character separator. -/
def splitChar (sep : Char) : List Char → List (List Char)
  | [] => [[]]
  | c :: cs =>
    let r := splitChar sep cs
    if c = sep then [] :: r
    else
      match r with
      | [] => [[c]]
      | h :: t => (c :: h) :: t

/-- Go strings.Split(s, sep) for a one-character separator. -/
def splitOnChar (sep : Char) (s : String) : List String :=
  (splitChar sep s.data).map String.mk

/-- Splitting a character list at every character satisfying `p`. -/
def splitWhen (p : Char → Bool) : List Char → List (List Char)
  | [] => [[]]
  | c :: cs =>
    let r := splitWhen p cs
    if p c then [] :: r
    else
      match r with
      | [] => [[c]]
      | h :: t => (c :: h) :: t

/-- Go strings.Fields: split around runs of whitespace, keeping only the
non-empty words. -/
def fields (s : String) : List String :=
  ((splitWhen isSpaceChar s.data).filter (fun w => w ≠ [])).map String.mk

/-- Go strings.ContainsAny(p, "*?["): the glob-metacharacter test of
gittoolbox.go line 28. -/
def hasGlobMeta (p : String) : Bool :=
  p.data.any (fun c => c = '*' || c = '?' || c = '[')

/-- PathTarget (gittoolbox.go lines 12-15). -/
structure PathTarget where
  Path : String
  IncludeSubdirs : Bool
deriving DecidableEq

/-- One entry of a directory listing, as returned by os.ReadDir: a name and
an is-directory flag. -/
structure DirEntry where
  name : String
  isDir : Bool
deriving DecidableEq

/-- The error cases of GetVersionMetadata, one constructor per
fmt.Errorf site (gittoolbox.go lines 31, 34, 40, 48, 68, 78, 96, 114,
122, 130); each carries the path or wrapped message the Go error carries. -/
inductive GVMError : Type where
  | invalidGlob (p : String) (msg : String)
  | noMatch (p : String)
  | statError (p : String) (msg : String)
  | readDirError (p : String) (msg : String)
  | noFiles
  | gitLogHash (msg : String)
  | gitLogDate (msg : String)
  | gitLogCount (msg : String)
deriving DecidableEq

/-- The filesystem and path-cleaning collaborators: `clean` models
filepath.Clean, `dirOf` models filepath.Dir, `stat` models os.Stat
(returning whether the path is a directory), `readDir` models os.ReadDir,
and `glob` models filepath.Glob (error = malformed pattern). -/
structure FS where
  clean : String → String
  dirOf : String → String
  stat : String → Except String Bool
  readDir : String → Except String (List DirEntry)
  glob : String → Except String (List String)

/-- filepath.Join(a, b) for non-empty components: concatenate with a
separator, then clean. -/
def joinPath (fs : FS) (a b : String) : String :=
  fs.clean (a ++ "/" ++ b)

/-- Resolution of a single already-expanded path `m` (the shared body of
gittoolbox.go lines 38-60 and 66-92): stat it; a file is appended as-is; a
directory is appended itself when `includeSubdirs` is set, and otherwise
contributes its immediate non-directory entries. -/
def resolveMatch (fs : FS) (includeSubdirs : Bool) (m : String) : Except GVMError (List String) :=
  match fs.stat m with
  | .error msg => .error (.statError m msg)
  | .ok true =>
    if includeSubdirs then .ok [m]
    else
      match fs.readDir m with
      | .error msg => .error (.readDirError m msg)
      | .ok entries =>
        .ok ((entries.filter (fun e => !e.isDir)).map (fun e => joinPath fs m e.name))
  | .ok false => .ok [m]

/-- The loop over glob matches (gittoolbox.go lines 36-61), concatenating
the contribution of each match and stopping at the first error. -/
def resolveMatches (fs : FS) (includeSubdirs : Bool) : List String → Except GVMError (List String)
  | [] => .ok []
  | m :: ms =>
    match resolveMatch fs includeSubdirs m with
    | .error e => .error e
    | .ok r =>
      match resolveMatches fs includeSubdirs ms with
      | .error e => .error e
      | .ok rest => .ok (r ++ rest)

/-- Resolution of one target (the body of the loop at gittoolbox.go lines
24-93): clean the path; a path containing a glob metacharacter is expanded
(malformed pattern and zero matches are errors), every other path is
resolved directly. -/
def resolveTarget (fs : FS) (t : PathTarget) : Except GVMError (List String) :=
  let p := fs.clean t.Path
  if hasGlobMeta p then
    match fs.glob p with
    | .error msg => .error (.invalidGlob p msg)
    | .ok [] => .error (.noMatch p)
    | .ok ms => resolveMatches fs t.IncludeSubdirs ms
  else
    resolveMatch fs t.IncludeSubdirs p

/-- The loop over targets (gittoolbox.go lines 24-93), accumulating
resolved paths in order and stopping at the first error. -/
def resolveLoop (fs : FS) : List PathTarget → Except GVMError (List String)
  | [] => .ok []
  | t :: ts =>
    match resolveTarget fs t with
    | .error e => .error e
    | .ok r =>
      match resolveLoop fs ts with
      | .error e => .error e
      | .ok rest => .ok (r ++ rest)

/-- Path resolution of GetVersionMetadata (gittoolbox.go lines 19-93): an
empty target list defaults to the current directory. -/
def resolveTargets (fs : FS) (targets : List PathTarget) : Except GVMError (List String) :=
  let ts := if targets.isEmpty then [{ Path := ".", IncludeSubdirs := false }] else targets
  resolveLoop fs ts

/-- The git-invocation collaborator: exec.Command("git", args...) with an
optional working directory, returning the raw combined output or the run
error's message. -/
structure Backend where
  run : String → List String → Except String String

/-- gitOutputIn (gittoolbox.go lines 198-208): run git and trim the
combined output. -/
def gitOutputIn (be : Backend) (dir : String) (args : List String) : Except String String :=
  match be.run dir args with
  | .error msg => .error msg
  | .ok out => .ok (trimSpace out)

/-- gitOutput (gittoolbox.go lines 193-195): gitOutputIn with no working
directory. -/
def gitOutput (be : Backend) (args : List String) : Except String String :=
  gitOutputIn be "" args

/-- Working-directory selection (gittoolbox.go lines 100-107): the directory
of the first resolved path when it stats as a file, the path itself
otherwise. -/
def workDirOf (fs : FS) (resolved : List String) : String :=
  match resolved with
  | [] => ""
  | r0 :: _ =>
    match fs.stat r0 with
    | .ok false => fs.dirOf r0
    | _ => r0

/-- Arguments of the hash query (gittoolbox.go lines 110-111). -/
def hashArgs (resolved : List String) : List String :=
  ["log", "-n", "1", "--pretty=format:%h", "--"] ++ resolved

/-- Arguments of the latest-date query (gittoolbox.go lines 118-119). -/
def dateArgs (resolved : List String) : List String :=
  ["log", "-n", "1", "--date=format:%Y-%m-%d", "--pretty=format:%cd", "--"] ++ resolved

/-- Arguments of the full date-history query (gittoolbox.go lines 126-127). -/
def countArgs (resolved : List String) : List String :=
  ["log", "--date=format:%Y-%m-%d", "--pretty=format:%cd", "--"] ++ resolved

/-- The same-date count (gittoolbox.go lines 133-138): how many lines of the
date-history output, trimmed, equal the latest-commit date. -/
def matchingCount (countStr commitDateNoSuffix : String) : Nat :=
  ((splitOnChar '\n' countStr).filter
    (fun line => trimSpace line = commitDateNoSuffix)).length

/-- Conversion of an in-range int32 value to a Go string: a valid code
point (non-negative, at most 0x10FFFF, not a surrogate) yields its
one-character string, anything else the replacement character U+FFFD. -/
def goRuneAux (r : Int) : String :=
  if 0 ≤ r ∧ r ≤ 1114111 ∧ (r < 55296 ∨ 57343 < r) then
    String.mk [Char.ofNat r.toNat]
  else "\uFFFD"

/-- Go's string(rune(n)): wrap the integer to int32 (the numerals are 2^31
and 2^32), then convert the resulting code point. -/
def goRuneToString (n : Int) : String :=
  goRuneAux ((n + 2147483648) % 4294967296 - 2147483648)

/-- The suffix letter (gittoolbox.go lines 141-145): empty for counts of at
most one, otherwise string(rune('a' + count - 1)). -/
def suffixFor (count : Nat) : String :=
  if count > 1 then goRuneToString (('a'.toNat : Int) + (count : Int) - 1) else ""

/-- The final date string (gittoolbox.go lines 147-152): the bare date when
the suffix is empty or "a", otherwise date-suffix. -/
def commitDateFor (commitDateNoSuffix : String) (count : Nat) : String :=
  let suffix := suffixFor count
  if suffix = "" ∨ suffix = "a" then commitDateNoSuffix
  else commitDateNoSuffix ++ "-" ++ suffix

/-- GetVersionMetadata (gittoolbox.go lines 17-155): resolve the targets,
pick the working directory, run the three git queries, and derive the
suffixed date; every error path returns two empty strings beside the
error. -/
def getVersionMetadata (fs : FS) (be : Backend) (targets : List PathTarget) :
    String × String × Option GVMError :=
  match resolveTargets fs targets with
  | .error e => ("", "", some e)
  | .ok resolved =>
    if resolved.isEmpty then ("", "", some .noFiles)
    else
      match gitOutputIn be (workDirOf fs resolved) (hashArgs resolved) with
      | .error msg => ("", "", some (.gitLogHash msg))
      | .ok commitHash =>
        match gitOutputIn be (workDirOf fs resolved) (dateArgs resolved) with
        | .error msg => ("", "", some (.gitLogDate msg))
        | .ok commitDateNoSuffix =>
          match gitOutputIn be (workDirOf fs resolved) (countArgs resolved) with
          | .error msg => ("", "", some (.gitLogCount msg))
          | .ok countStr =>
            (commitDateFor commitDateNoSuffix (matchingCount countStr commitDateNoSuffix),
              commitHash, none)

/-- The error cases of AssertBranchIsCleanAndSynced: propagated git errors
(gittoolbox.go lines 160, 165, 170, 185) and the four classified failures
(lines 174, 177, 180, 188). -/
inductive SyncError : Type where
  | backend (msg : String)
  | unexpectedRevList
  | behind (branch : String)
  | ahead (branch : String)
  | uncommitted
deriving DecidableEq

/-- AssertBranchIsCleanAndSynced (gittoolbox.go lines 157-191): branch
name, fetch, ahead/behind counts, working-tree status, in that order,
returning the first failure; `none` is the nil error. -/
def assertBranchIsCleanAndSynced (be : Backend) : Option SyncError :=
  match gitOutput be ["rev-parse", "--abbrev-ref", "HEAD"] with
  | .error msg => some (.backend msg)
  | .ok branch0 =>
    let branch := trimSpace branch0
    match gitOutput be ["fetch", "origin", branch, "--quiet"] with
    | .error msg => some (.backend msg)
    | .ok _ =>
      match gitOutput be ["rev-list", "--left-right", "--count",
          "origin/" ++ branch ++ "..." ++ branch] with
      | .error msg => some (.backend msg)
      | .ok status =>
        match fields status with
        | [p0, p1] =>
          if p0 ≠ "0" then some (.behind branch)
          else if p1 ≠ "0" then some (.ahead branch)
          else
            match gitOutput be ["status", "--porcelain"] with
            | .error msg => some (.backend msg)
            | .ok changes =>
              if trimSpace changes ≠ "" then some .uncommitted
              else none
        | _ => some .unexpectedRevList

/-! Helper lemmas shared by the claim theorems. -/

/-- String concatenation is associative. -/
theorem strAppend_assoc (a b c : String) : a ++ b ++ c = a ++ (b ++ c) := by
  rcases a with ⟨la⟩; rcases b with ⟨lb⟩; rcases c with ⟨lc⟩
  show String.mk (la ++ lb ++ lc) = String.mk (la ++ (lb ++ lc))
  rw [List.append_assoc]

/-- Converting a valid code point to a character and back is the identity. -/
theorem char_ofNat_toNat (n : Nat) (h : n.isValidChar) : (Char.ofNat n).toNat = n := by
  simp [Char.ofNat, h, Char.ofNatAux, Char.toNat]
  rfl

/-- Below the surrogate range, goRuneAux yields the code point itself. -/
theorem goRuneAux_valid (r : Int) (h0 : 0 ≤ r) (h1 : r < 55296) :
    goRuneAux r = String.mk [Char.ofNat r.toNat] := by
  unfold goRuneAux
  rw [if_pos ⟨h0, by omega, Or.inl h1⟩]

/-- From code point 98 ('b') on, goRuneAux never yields the empty string or
the string "a". -/
theorem goRuneAux_ne (r : Int) (h98 : 98 ≤ r) : goRuneAux r ≠ "" ∧ goRuneAux r ≠ "a" := by
  unfold goRuneAux
  split_ifs with hc
  · constructor
    · intro h
      simpa using congrArg String.data h
    · intro h
      have h1 : Char.ofNat r.toNat = 'a' := by simpa using congrArg String.data h
      have hv : r.toNat.isValidChar := by
        unfold Nat.isValidChar
        omega
      have h2 := congrArg Char.toNat h1
      rw [char_ofNat_toNat _ hv] at h2
      have h3 : r.toNat = 97 := h2
      omega
  · constructor <;> decide

/-- Values already inside the int32 range are unchanged by the wrap. -/
theorem goRuneToString_eq (m : Int) (h0 : 0 ≤ m) (hlt : m < 2147483648) :
    goRuneToString m = goRuneAux m := by
  unfold goRuneToString
  rw [Int.emod_eq_of_lt (by omega) (by omega), add_sub_cancel_right]

/-- For a same-date count of at least two (up to int32 wrap-around), the
suffix is the single character with code 'a' + count - 1. -/
theorem suffixFor_eq_letter (n : Nat) (h2 : 2 ≤ n) (hb : n ≤ 26) :
    suffixFor n = String.mk [Char.ofNat (96 + n)] := by
  unfold suffixFor
  rw [if_pos (by omega)]
  have ha : (('a'.toNat : Int) + (n : Int) - 1) = 96 + (n : Int) := by
    have : ('a'.toNat : Int) = 97 := rfl
    omega
  rw [ha, goRuneToString_eq _ (by omega) (by omega), goRuneAux_valid _ (by omega) (by omega),
    show ((96 : Int) + (n : Int)).toNat = 96 + n from by omega]

/-- For a same-date count of at least two (up to int32 wrap-around), the
suffix is neither empty nor "a". -/
theorem suffixFor_ne (n : Nat) (h2 : 2 ≤ n) (hb : n ≤ 2147483551) :
    suffixFor n ≠ "" ∧ suffixFor n ≠ "a" := by
  unfold suffixFor
  rw [if_pos (by omega)]
  have ha : (('a'.toNat : Int) + (n : Int) - 1) = 96 + (n : Int) := by
    have : ('a'.toNat : Int) = 97 := rfl
    omega
  rw [ha, goRuneToString_eq _ (by omega) (by omega)]
  exact goRuneAux_ne _ (by omega)

/-- For a same-date count of at least two (up to int32 wrap-around), the
date comes back with the suffix appended after a dash. -/
theorem commitDateFor_eq_append (d : String) (n : Nat) (h2 : 2 ≤ n) (hb : n ≤ 2147483551) :
    commitDateFor d n = d ++ "-" ++ suffixFor n := by
  have hne := suffixFor_ne n h2 hb
  unfold commitDateFor
  rw [if_neg (not_or.mpr ⟨hne.1, hne.2⟩)]

/-- A same-date count of one yields the bare date. -/
theorem commitDateFor_one (d : String) : commitDateFor d 1 = d := by
  simp [commitDateFor, suffixFor]

/-- A same-date count of two yields the date with "-b" appended. -/
theorem commitDateFor_two (d : String) : commitDateFor d 2 = d ++ "-b" := by
  have hs : suffixFor 2 = "b" := by decide
  simp only [commitDateFor, hs]
  rw [if_neg (by decide), strAppend_assoc]
  rfl

/-- Resolution of a concatenated target list is the concatenation of the
two resolutions, stopping at the first error. -/
theorem resolveLoop_append (fs : FS) (xs ys : List PathTarget) :
    resolveLoop fs (xs ++ ys) =
      match resolveLoop fs xs with
      | .error e => .error e
      | .ok a =>
        match resolveLoop fs ys with
        | .error e => .error e
        | .ok b => .ok (a ++ b) := by
  induction xs with
  | nil =>
    cases h : resolveLoop fs ys <;> simp [resolveLoop, h]
  | cons x xs ih =>
    simp only [List.cons_append, resolveLoop]
    cases hx : resolveTarget fs x <;> simp only [List.append_eq]
    rw [ih]
    cases ha : resolveLoop fs xs <;> cases hy : resolveLoop fs ys <;>
      simp [List.append_assoc]

/-- A successful full run of GetVersionMetadata: the resolution result, the
three trimmed backend outputs, and the derived date assemble the returned
triple. -/
theorem getVersionMetadata_run (fs : FS) (be : Backend) (targets : List PathTarget)
    (resolved : List String) (h d c : String)
    (hres : resolveTargets fs targets = .ok resolved)
    (hne : resolved ≠ [])
    (hh : gitOutputIn be (workDirOf fs resolved) (hashArgs resolved) = .ok h)
    (hd : gitOutputIn be (workDirOf fs resolved) (dateArgs resolved) = .ok d)
    (hc : gitOutputIn be (workDirOf fs resolved) (countArgs resolved) = .ok c) :
    getVersionMetadata fs be targets = (commitDateFor d (matchingCount c d), h, none) := by
  unfold getVersionMetadata
  rw [hres]
  rcases resolved with _ | ⟨r, rs⟩
  · exact absurd rfl hne
  · simp [hh, hd, hc]

/-- Resolution of a one-target list naming a plain file. -/
theorem resolveTargets_single_file (fs : FS) (path : String) (incl : Bool)
    (hmeta : hasGlobMeta (fs.clean path) = false)
    (hstat : fs.stat (fs.clean path) = .ok false) :
    resolveTargets fs [{ Path := path, IncludeSubdirs := incl }] = .ok [fs.clean path] := by
  simp [resolveTargets, resolveLoop, resolveTarget, resolveMatch, hmeta, hstat]

/-- Listing clean, glob-free paths as literal targets resolves them exactly
like the per-match loop of the glob branch. -/
theorem resolveLoop_map_literal (fs : FS) (incl : Bool) (ms : List String)
    (hclean : ∀ m ∈ ms, fs.clean m = m)
    (hnometa : ∀ m ∈ ms, hasGlobMeta m = false) :
    resolveLoop fs (ms.map (fun m => { Path := m, IncludeSubdirs := incl })) =
      resolveMatches fs incl ms := by
  induction ms with
  | nil => rfl
  | cons m ms ih =>
    have hc := hclean m (List.mem_cons_self m ms)
    have hn := hnometa m (List.mem_cons_self m ms)
    have ht : resolveTarget fs { Path := m, IncludeSubdirs := incl } = resolveMatch fs incl m := by
      unfold resolveTarget
      simp [hc, hn]
    simp only [List.map_cons, resolveLoop, resolveMatches, ht,
      ih (fun x hx => hclean x (List.mem_cons_of_mem m hx))
        (fun x hx => hnometa x (List.mem_cons_of_mem m hx))]

/-! Concrete filesystem and backend instances used as witnesses and
counterexamples. -/

/-- A filesystem with one plain file b.txt; paths pass through unchanged. -/
def fsTwo : FS where
  clean := fun p => p
  dirOf := fun _ => "."
  stat := fun p => if p = "b.txt" then .ok false else .error "no such file"
  readDir := fun _ => .error "not a dir"
  glob := fun _ => .error "bad pattern"

/-- A backend whose history for b.txt holds two commits dated 2025-09-11. -/
def beTwo : Backend where
  run := fun _ args =>
    if args = hashArgs ["b.txt"] then .ok "abc1234"
    else if args = dateArgs ["b.txt"] then .ok "2025-09-11"
    else if args = countArgs ["b.txt"] then .ok "2025-09-11\n2025-09-11"
    else .error "unexpected"

/-- A filesystem with one plain file c.txt; paths pass through unchanged. -/
def fsThree : FS where
  clean := fun p => p
  dirOf := fun _ => "."
  stat := fun p => if p = "c.txt" then .ok false else .error "no such file"
  readDir := fun _ => .error "not a dir"
  glob := fun _ => .error "bad pattern"

/-- A backend whose history for c.txt holds three commits dated 2025-09-12. -/
def beThree : Backend where
  run := fun _ args =>
    if args = hashArgs ["c.txt"] then .ok "cafef00"
    else if args = dateArgs ["c.txt"] then .ok "2025-09-12"
    else if args = countArgs ["c.txt"] then .ok "2025-09-12\n2025-09-12\n2025-09-12"
    else .error "unexpected"

/-- A filesystem with one plain file a.txt; paths pass through unchanged. -/
def fsOne : FS where
  clean := fun p => p
  dirOf := fun _ => "."
  stat := fun p => if p = "a.txt" then .ok false else .error "no such file"
  readDir := fun _ => .error "not a dir"
  glob := fun _ => .error "bad pattern"

/-- A backend whose history for a.txt holds a single commit dated
2025-09-10. -/
def beOne : Backend where
  run := fun _ args =>
    if args = hashArgs ["a.txt"] then .ok "1ab2cd3"
    else if args = dateArgs ["a.txt"] then .ok "2025-09-10"
    else if args = countArgs ["a.txt"] then .ok "2025-09-10"
    else .error "unexpected"

/-- A filesystem with a directory d holding a file f.txt and a nested
directory sub. -/
def fsDir : FS where
  clean := fun p => p
  dirOf := fun _ => "."
  stat := fun p => if p = "d" then .ok true else .ok false
  readDir := fun p =>
    if p = "d" then .ok [{ name := "f.txt", isDir := false }, { name := "sub", isDir := true }]
    else .error "not a dir"
  glob := fun _ => .error "bad pattern"

/-- A backend on branch main, one commit behind origin, clean tree. -/
def beSyncBehind : Backend where
  run := fun _ args =>
    if args = ["rev-parse", "--abbrev-ref", "HEAD"] then .ok "main"
    else if args = ["fetch", "origin", "main", "--quiet"] then .ok ""
    else if args = ["rev-list", "--left-right", "--count", "origin/main...main"] then .ok "1 0"
    else if args = ["status", "--porcelain"] then .ok ""
    else .error "unexpected"

/-- A backend whose rev-list output has three fields instead of two. -/
def beSyncParse : Backend where
  run := fun _ args =>
    if args = ["rev-parse", "--abbrev-ref", "HEAD"] then .ok "main"
    else if args = ["fetch", "origin", "main", "--quiet"] then .ok ""
    else if args = ["rev-list", "--left-right", "--count", "origin/main...main"] then .ok "1 0 2"
    else if args = ["status", "--porcelain"] then .ok ""
    else .error "unexpected"

/-- A filesystem holding a file literally named a[b, matched by the pattern
a?b; the name itself is a malformed pattern. -/
def fsGlobCex : FS where
  clean := fun p => p
  dirOf := fun _ => "."
  stat := fun p => if p = "a[b" then .ok false else .error "no such file"
  readDir := fun _ => .error "not a dir"
  glob := fun p => if p = "a?b" then .ok ["a[b"] else .error "syntax error in pattern"

/-- A filesystem where the pattern *.txt matches the two plain files a.txt
and b.txt. -/
def fsGlobOk : FS where
  clean := fun p => p
  dirOf := fun _ => "."
  stat := fun p => if p = "a.txt" || p = "b.txt" then .ok false else .error "no such file"
  readDir := fun _ => .error "not a dir"
  glob := fun p => if p = "*.txt" then .ok ["a.txt", "b.txt"] else .error "bad pattern"

/-- A filesystem where the pattern nope-*.txt matches nothing. -/
def fsNoMatch : FS where
  clean := fun p => p
  dirOf := fun _ => "."
  stat := fun _ => .error "no such file"
  readDir := fun _ => .error "not a dir"
  glob := fun p => if p = "nope-*.txt" then .ok [] else .error "bad pattern"

/-- A backend that always fails; resolution errors must hit before it. -/
def beAny : Backend where
  run := fun _ _ => .error "backend must not be reached"

/-- A filesystem on which every stat fails. -/
def fsFail : FS where
  clean := fun p => p
  dirOf := fun _ => "."
  stat := fun _ => .error "no such file"
  readDir := fun _ => .error "not a dir"
  glob := fun _ => .error "bad pattern"

/-- A backend that always fails. -/
def beFail : Backend where
  run := fun _ _ => .error "git failed"

/-! Claim theorems. -/

/-- C1 counterexample: with a latest-commit date matching exactly two lines
of the date-history output (count = 2), GetVersionMetadata returns the date
with suffix "-b", not the bare date the claim asserts. -/
theorem count_two_suffix_cex :
    matchingCount "2025-09-11\n2025-09-11" "2025-09-11" = 2 ∧
    getVersionMetadata fsTwo beTwo [{ Path := "b.txt", IncludeSubdirs := false }] =
      ("2025-09-11-b", "abc1234", none) ∧
    "2025-09-11-b" ≠ "2025-09-11" := by
  refine ⟨by decide, by decide, by decide⟩

/-- C1 (amended): for every resolved path set whose latest-commit date
matches exactly two lines of the full date-history output (count = 2),
GetVersionMetadata appends the suffix "-b" to the date; the unsuffixed date
is returned only for counts of at most one. -/
theorem count_two_appends_b (fs : FS) (be : Backend) (targets : List PathTarget)
    (resolved : List String) (h d c : String)
    (hres : resolveTargets fs targets = .ok resolved)
    (hne : resolved ≠ [])
    (hh : gitOutputIn be (workDirOf fs resolved) (hashArgs resolved) = .ok h)
    (hd : gitOutputIn be (workDirOf fs resolved) (dateArgs resolved) = .ok d)
    (hc : gitOutputIn be (workDirOf fs resolved) (countArgs resolved) = .ok c)
    (hcount : matchingCount c d = 2) :
    getVersionMetadata fs be targets = (d ++ "-b", h, none) := by
  rw [getVersionMetadata_run fs be targets resolved h d c hres hne hh hd hc, hcount,
    commitDateFor_two]

/-- C1 witness: the amended statement evaluated on the two-commit backend. -/
theorem count_two_appends_b_witness :
    getVersionMetadata fsTwo beTwo [{ Path := "b.txt", IncludeSubdirs := false }] =
      ("2025-09-11" ++ "-b", "abc1234", none) :=
  count_two_appends_b fsTwo beTwo [{ Path := "b.txt", IncludeSubdirs := false }]
    ["b.txt"] "abc1234" "2025-09-11" "2025-09-11\n2025-09-11"
    (by decide) (by decide) (by decide) (by decide) (by decide) (by decide)

/-- C2 counterexample: with a latest-commit date matching three lines of
the date-history output (count = 3), GetVersionMetadata appends "-c"
(letter 'a' + count - 1), not the "-b" the claim asserts. -/
theorem count_three_suffix_cex :
    matchingCount "2025-09-12\n2025-09-12\n2025-09-12" "2025-09-12" = 3 ∧
    getVersionMetadata fsThree beThree [{ Path := "c.txt", IncludeSubdirs := false }] =
      ("2025-09-12-c", "cafef00", none) ∧
    "2025-09-12-c" ≠ "2025-09-12-b" := by
  refine ⟨by decide, by decide, by decide⟩

/-- C2 (amended): for every resolved path set whose latest-commit date
matches count ≥ 3 lines of the full date-history output, GetVersionMetadata
appends "-letter" where the letter has code 'a' + (count - 1), so count = 3
yields "-c" and count = 4 yields "-d" (stated for letters up to 'z'). -/
theorem count_ge_three_letter (fs : FS) (be : Backend) (targets : List PathTarget)
    (resolved : List String) (h d c : String) (n : Nat)
    (hres : resolveTargets fs targets = .ok resolved)
    (hne : resolved ≠ [])
    (hh : gitOutputIn be (workDirOf fs resolved) (hashArgs resolved) = .ok h)
    (hd : gitOutputIn be (workDirOf fs resolved) (dateArgs resolved) = .ok d)
    (hc : gitOutputIn be (workDirOf fs resolved) (countArgs resolved) = .ok c)
    (hcount : matchingCount c d = n) (h3 : 3 ≤ n) (h26 : n ≤ 26) :
    getVersionMetadata fs be targets =
      (d ++ "-" ++ String.mk [Char.ofNat (96 + n)], h, none) := by
  rw [getVersionMetadata_run fs be targets resolved h d c hres hne hh hd hc, hcount,
    commitDateFor_eq_append d n (by omega) (by omega), suffixFor_eq_letter n (by omega) h26]

/-- C2 witness: the amended statement evaluated on the three-commit
backend, where the letter is 'c'. -/
theorem count_ge_three_letter_witness :
    getVersionMetadata fsThree beThree [{ Path := "c.txt", IncludeSubdirs := false }] =
      ("2025-09-12" ++ "-" ++ String.mk [Char.ofNat (96 + 3)], "cafef00", none) :=
  count_ge_three_letter fsThree beThree [{ Path := "c.txt", IncludeSubdirs := false }]
    ["c.txt"] "cafef00" "2025-09-12" "2025-09-12\n2025-09-12\n2025-09-12" 3
    (by decide) (by decide) (by decide) (by decide) (by decide) (by decide) (by decide) (by decide)

/-- C3: for a single-file target whose date-history output contains exactly
one line equal to the latest-commit date, GetVersionMetadata returns the
bare date with no suffix and the non-empty hash the backend reported. -/
theorem single_file_one_commit (fs : FS) (be : Backend) (path h d c : String) (incl : Bool)
    (hmeta : hasGlobMeta (fs.clean path) = false)
    (hstat : fs.stat (fs.clean path) = .ok false)
    (hh : gitOutputIn be (workDirOf fs [fs.clean path]) (hashArgs [fs.clean path]) = .ok h)
    (hd : gitOutputIn be (workDirOf fs [fs.clean path]) (dateArgs [fs.clean path]) = .ok d)
    (hc : gitOutputIn be (workDirOf fs [fs.clean path]) (countArgs [fs.clean path]) = .ok c)
    (hhash : h ≠ "")
    (hcount : matchingCount c d = 1) :
    getVersionMetadata fs be [{ Path := path, IncludeSubdirs := incl }] = (d, h, none) ∧
    (getVersionMetadata fs be [{ Path := path, IncludeSubdirs := incl }]).2.1 ≠ "" := by
  have hres := resolveTargets_single_file fs path incl hmeta hstat
  have hrun := getVersionMetadata_run fs be [{ Path := path, IncludeSubdirs := incl }]
    [fs.clean path] h d c hres (by simp) hh hd hc
  rw [hcount, commitDateFor_one] at hrun
  exact ⟨hrun, by rw [hrun]; exact hhash⟩

/-- C3 witness: the statement evaluated on a single-commit backend. -/
theorem single_file_one_commit_witness :
    getVersionMetadata fsOne beOne [{ Path := "a.txt", IncludeSubdirs := false }] =
      ("2025-09-10", "1ab2cd3", none) ∧
    (getVersionMetadata fsOne beOne [{ Path := "a.txt", IncludeSubdirs := false }]).2.1 ≠ "" :=
  single_file_one_commit fsOne beOne "a.txt" "1ab2cd3" "2025-09-10" "2025-09-10" false
    (by decide) (by decide) (by decide) (by decide) (by decide) (by decide) (by decide)

/-- C4: for a target whose path is an existing directory, the resolver with
IncludeSubdirs = false appends exactly the directory's immediate
non-directory entries (nested directories are skipped, not recursed into),
and with IncludeSubdirs = true appends the directory path itself as a
single entry. -/
theorem dir_target_resolution (fs : FS) (path : String) (entries : List DirEntry)
    (hmeta : hasGlobMeta (fs.clean path) = false)
    (hstat : fs.stat (fs.clean path) = .ok true)
    (hread : fs.readDir (fs.clean path) = .ok entries) :
    resolveTargets fs [{ Path := path, IncludeSubdirs := false }] =
      .ok ((entries.filter (fun e => !e.isDir)).map
        (fun e => joinPath fs (fs.clean path) e.name)) ∧
    resolveTargets fs [{ Path := path, IncludeSubdirs := true }] = .ok [fs.clean path] := by
  constructor
  · simp [resolveTargets, resolveLoop, resolveTarget, resolveMatch, hmeta, hstat, hread]
  · simp [resolveTargets, resolveLoop, resolveTarget, resolveMatch, hmeta, hstat]

/-- C4 witness: the statement evaluated on a directory with one file and
one nested directory. -/
theorem dir_target_resolution_witness :
    resolveTargets fsDir [{ Path := "d", IncludeSubdirs := false }] =
      .ok ((([{ name := "f.txt", isDir := false }, { name := "sub", isDir := true }] :
        List DirEntry).filter (fun e => !e.isDir)).map
          (fun e => joinPath fsDir (fsDir.clean "d") e.name)) ∧
    resolveTargets fsDir [{ Path := "d", IncludeSubdirs := true }] = .ok [fsDir.clean "d"] :=
  dir_target_resolution fsDir "d"
    [{ name := "f.txt", isDir := false }, { name := "sub", isDir := true }]
    (by decide) (by decide) (by decide)

/-- C5: with the branch-name, fetch and rev-list queries succeeding and the
rev-list output splitting into two fields, AssertBranchIsCleanAndSynced
reports behind whenever the first field is non-zero (regardless of the
second field and of the status query), reports ahead when the first field
is zero and the second non-zero, and reports uncommitted changes only when
both divergence fields are zero and the status output is non-empty — the
checks run in that order and stop at the first failure. -/
theorem sync_check_order (be : Backend) (b f s c0 c1 : String)
    (h1 : gitOutput be ["rev-parse", "--abbrev-ref", "HEAD"] = .ok b)
    (h2 : gitOutput be ["fetch", "origin", trimSpace b, "--quiet"] = .ok f)
    (h3 : gitOutput be ["rev-list", "--left-right", "--count",
      "origin/" ++ trimSpace b ++ "..." ++ trimSpace b] = .ok s)
    (h4 : fields s = [c0, c1]) :
    (c0 ≠ "0" → assertBranchIsCleanAndSynced be = some (.behind (trimSpace b))) ∧
    (c0 = "0" → c1 ≠ "0" → assertBranchIsCleanAndSynced be = some (.ahead (trimSpace b))) ∧
    (assertBranchIsCleanAndSynced be = some .uncommitted →
      c0 = "0" ∧ c1 = "0" ∧
      ∃ ch, gitOutput be ["status", "--porcelain"] = .ok ch ∧ trimSpace ch ≠ "") := by
  unfold assertBranchIsCleanAndSynced
  simp only [h1, h2, h3, h4]
  refine ⟨fun hc0 => by simp [hc0], fun hc0 hc1 => by simp [hc0, hc1], fun hu => ?_⟩
  by_cases hc0 : c0 = "0"
  · by_cases hc1 : c1 = "0"
    · refine ⟨hc0, hc1, ?_⟩
      simp only [hc0, hc1] at hu
      rcases hst : gitOutput be ["status", "--porcelain"] with m | ch
      · rw [hst] at hu
        simp at hu
      · rw [hst] at hu
        by_cases hch : trimSpace ch = ""
        · simp [hch] at hu
        · exact ⟨ch, rfl, hch⟩
    · simp [hc0, hc1] at hu
  · simp [hc0] at hu

/-- C5 witness: on a backend that is both behind and has no further
problems, the behind error is reported. -/
theorem sync_check_order_witness :
    assertBranchIsCleanAndSynced beSyncBehind = some (.behind (trimSpace "main")) :=
  (sync_check_order beSyncBehind "main" "" "1 0" "1" "0"
    (by decide) (by decide) (by decide) (by decide)).1 (by decide)

/-- C6: with the branch-name, fetch and rev-list queries succeeding,
AssertBranchIsCleanAndSynced reports the unexpected-output error whenever
the rev-list output does not split into exactly two whitespace-separated
fields; with two fields, a non-zero first field yields the behind error
naming the branch, and a zero first with non-zero second field yields the
ahead error naming the branch. -/
theorem sync_check_parse (be : Backend) (b f s : String)
    (h1 : gitOutput be ["rev-parse", "--abbrev-ref", "HEAD"] = .ok b)
    (h2 : gitOutput be ["fetch", "origin", trimSpace b, "--quiet"] = .ok f)
    (h3 : gitOutput be ["rev-list", "--left-right", "--count",
      "origin/" ++ trimSpace b ++ "..." ++ trimSpace b] = .ok s) :
    ((fields s).length ≠ 2 →
      assertBranchIsCleanAndSynced be = some .unexpectedRevList) ∧
    (∀ c0 c1, fields s = [c0, c1] → c0 ≠ "0" →
      assertBranchIsCleanAndSynced be = some (.behind (trimSpace b))) ∧
    (∀ c1, fields s = ["0", c1] → c1 ≠ "0" →
      assertBranchIsCleanAndSynced be = some (.ahead (trimSpace b))) := by
  unfold assertBranchIsCleanAndSynced
  simp only [h1, h2, h3]
  refine ⟨fun hlen => ?_, fun c0 c1 hf hc0 => by simp [hf, hc0], fun c1 hf hc1 => by simp [hf, hc1]⟩
  rcases hf : fields s with _ | ⟨x, _ | ⟨y, _ | ⟨z, rest⟩⟩⟩
  · simp [hf]
  · simp [hf]
  · rw [hf] at hlen
    simp at hlen
  · simp [hf]

/-- C6 witness: a three-field rev-list output yields the unexpected-output
error. -/
theorem sync_check_parse_witness :
    assertBranchIsCleanAndSynced beSyncParse = some .unexpectedRevList :=
  (sync_check_parse beSyncParse "main" "" "1 0 2"
    (by decide) (by decide) (by decide)).1 (by decide)

/-- C7 counterexample: the pattern a?b expands to the single match a[b (a
legal file name), which resolves fine through the glob branch; naming that
match literally re-classifies it as a (malformed) glob, so the literal
target list resolves to a different result. -/
theorem glob_literal_cex :
    fsGlobCex.glob (fsGlobCex.clean "a?b") = .ok ["a[b"] ∧
    resolveTargets fsGlobCex [{ Path := "a?b", IncludeSubdirs := false }] = .ok ["a[b"] ∧
    resolveTargets fsGlobCex [{ Path := "a[b", IncludeSubdirs := false }] =
      .error (.invalidGlob "a[b" "syntax error in pattern") := by
  refine ⟨by decide, by decide, by decide⟩

/-- C7 (amended): a glob target expanding to one or more matches resolves
exactly like a target list naming those matches literally with the same
IncludeSubdirs flag, provided each matched path is clean and contains no
glob metacharacter (as real glob matches of a clean metacharacter-free
directory tree are). -/
theorem glob_matches_literal (fs : FS) (pat : String) (incl : Bool) (ms : List String)
    (hmeta : hasGlobMeta (fs.clean pat) = true)
    (hglob : fs.glob (fs.clean pat) = .ok ms)
    (hne : ms ≠ [])
    (hclean : ∀ m ∈ ms, fs.clean m = m)
    (hnometa : ∀ m ∈ ms, hasGlobMeta m = false) :
    resolveTargets fs [{ Path := pat, IncludeSubdirs := incl }] =
      resolveTargets fs (ms.map (fun m => { Path := m, IncludeSubdirs := incl })) := by
  rcases ms with _ | ⟨m0, mrest⟩
  · exact absurd rfl hne
  · have hlit := resolveLoop_map_literal fs incl (m0 :: mrest) hclean hnometa
    have hne2 : ((m0 :: mrest).map
        (fun m => ({ Path := m, IncludeSubdirs := incl } : PathTarget))).isEmpty = false := rfl
    unfold resolveTargets
    simp only [List.isEmpty_cons, hne2, Bool.false_eq_true, if_false, ite_false, hlit]
    unfold resolveLoop resolveTarget
    simp only [hmeta, hglob, if_true, ite_true]
    cases hm : resolveMatches fs incl (m0 :: mrest) <;> simp [resolveLoop]

/-- C7 witness: the amended statement evaluated on a glob with two file
matches. -/
theorem glob_matches_literal_witness :
    resolveTargets fsGlobOk [{ Path := "*.txt", IncludeSubdirs := false }] =
      resolveTargets fsGlobOk (["a.txt", "b.txt"].map
        (fun m => { Path := m, IncludeSubdirs := false })) :=
  glob_matches_literal fsGlobOk "*.txt" false ["a.txt", "b.txt"]
    (by decide) (by decide) (by decide) (by decide) (by decide)

/-- C8: when resolution reaches a target whose cleaned path contains a glob
metacharacter and whose expansion yields zero matches (every earlier target
having resolved successfully), GetVersionMetadata fails with the no-match
error for that pattern, whatever the backend — so the backend is never
queried. -/
theorem glob_no_match_fails (fs : FS) (be : Backend) (pre post : List PathTarget)
    (t : PathTarget) (acc : List String)
    (hpre : resolveLoop fs pre = .ok acc)
    (hmeta : hasGlobMeta (fs.clean t.Path) = true)
    (hglob : fs.glob (fs.clean t.Path) = .ok []) :
    getVersionMetadata fs be (pre ++ t :: post) =
      ("", "", some (.noMatch (fs.clean t.Path))) := by
  have ht : resolveTarget fs t = .error (.noMatch (fs.clean t.Path)) := by
    unfold resolveTarget
    simp [hmeta, hglob]
  have hres : resolveTargets fs (pre ++ t :: post) = .error (.noMatch (fs.clean t.Path)) := by
    have hne : (pre ++ t :: post).isEmpty = false := by cases pre <;> rfl
    unfold resolveTargets
    rw [hne]
    simp only [Bool.false_eq_true, if_false, ite_false]
    rw [resolveLoop_append, hpre]
    simp [resolveLoop, ht]
  unfold getVersionMetadata
  rw [hres]

/-- C8 witness: the statement evaluated on a zero-match glob as the only
target, against a backend that fails if ever reached. -/
theorem glob_no_match_fails_witness :
    getVersionMetadata fsNoMatch beAny
        ([] ++ { Path := "nope-*.txt", IncludeSubdirs := false } :: []) =
      ("", "", some (.noMatch (fsNoMatch.clean "nope-*.txt"))) :=
  glob_no_match_fails fsNoMatch beAny [] [] { Path := "nope-*.txt", IncludeSubdirs := false } []
    (by decide) (by decide) (by decide)

/-- C9: whenever GetVersionMetadata returns an error, both returned string
components are empty — no partial metadata accompanies an error. -/
theorem error_empty_strings (fs : FS) (be : Backend) (targets : List PathTarget) (e : GVMError)
    (he : (getVersionMetadata fs be targets).2.2 = some e) :
    (getVersionMetadata fs be targets).1 = "" ∧
    (getVersionMetadata fs be targets).2.1 = "" := by
  have hshape : ((getVersionMetadata fs be targets).1 = "" ∧
      (getVersionMetadata fs be targets).2.1 = "") ∨
      (getVersionMetadata fs be targets).2.2 = none := by
    unfold getVersionMetadata
    split
    · exact Or.inl ⟨rfl, rfl⟩
    · split
      · exact Or.inl ⟨rfl, rfl⟩
      · split
        · exact Or.inl ⟨rfl, rfl⟩
        · split
          · exact Or.inl ⟨rfl, rfl⟩
          · split
            · exact Or.inl ⟨rfl, rfl⟩
            · exact Or.inr rfl
  rcases hshape with hs | hs
  · exact hs
  · rw [he] at hs
    cases hs

/-- C9 witness: the statement evaluated on a failing stat. -/
theorem error_empty_strings_witness :
    (getVersionMetadata fsFail beFail [{ Path := "x", IncludeSubdirs := false }]).1 = "" ∧
    (getVersionMetadata fsFail beFail [{ Path := "x", IncludeSubdirs := false }]).2.1 = "" :=
  error_empty_strings fsFail beFail [{ Path := "x", IncludeSubdirs := false }]
    (.statError "x" "no such file") (by decide)

/-- C10: whenever the same-date count is at least 2 (and below the int32
wrap-around of the rune conversion), the suffix is a letter of at least
'b': it is never the empty string and never "a", so the branch of the date
assembly that collapses suffix "a" to the bare date is unreachable and a
suffix is always appended. -/
theorem suffix_a_collapse_unreachable (n : Nat) (d : String)
    (h2 : 2 ≤ n) (hb : n ≤ 2147483551) :
    suffixFor n ≠ "" ∧ suffixFor n ≠ "a" ∧
    commitDateFor d n = d ++ "-" ++ suffixFor n :=
  ⟨(suffixFor_ne n h2 hb).1, (suffixFor_ne n h2 hb).2, commitDateFor_eq_append d n h2 hb⟩

/-- C10 witness: the statement evaluated at count 2. -/
theorem suffix_a_collapse_unreachable_witness :
    suffixFor 2 ≠ "" ∧ suffixFor 2 ≠ "a" ∧
    commitDateFor "2025-09-11" 2 = "2025-09-11" ++ "-" ++ suffixFor 2 :=
  suffix_a_collapse_unreachable 2 "2025-09-11" (by decide) (by decide)

end GitToolbox
